import Mathlib

/-!
# Verification of the customer-churn batch-transform notebook's pipeline logic

Shallow embedding of the data-processing steps of
`customised_xgboost_customer_churn_batch_transform.ipynb`:
duplicate-row removal (`drop_duplicates`), one-hot encoding
(`pd.get_dummies`) and target-column rearrangement, the 70/20/10
train/validation/test split (`np.split` after a fixed-seed shuffle),
the batch-input construction (`test_data.iloc[:, 1:]`), the 0.5 rounding
threshold (`np.round`), the metric computation (`get_score`), and the
name environment of the evaluation cell.
-/

namespace ChurnPipeline

/-! ## Splitter: `np.split(model_data.sample(frac=1, random_state=1729),
    [int(0.7 * len(model_data)), int(0.9 * len(model_data))])` -/

/-- `np.split(arr, [i, j])` returns the three sections `arr[0:i]`,
`arr[i:j]`, `arr[j:]` (slices clamp at the array length). -/
def npSplit3 (l : List α) (i j : ℕ) : List α × List α × List α :=
  (l.take i, (l.drop i).take (j - i), l.drop j)

/-- `int(0.7 * n)`: the first split point (exact rational arithmetic,
`⌊7n/10⌋`). -/
def splitLo (n : ℕ) : ℕ := 7 * n / 10

/-- `int(0.9 * n)`: the second split point (`⌊9n/10⌋`). -/
def splitHi (n : ℕ) : ℕ := 9 * n / 10

/-- The Splitter applied to the already-shuffled dataframe: cell
`train_data, validation_data, test_data = np.split(...)`. -/
def splitter (shuffled : List α) : List α × List α × List α :=
  npSplit3 shuffled (splitLo shuffled.length) (splitHi shuffled.length)

theorem splitLo_le_splitHi (n : ℕ) : splitLo n ≤ splitHi n :=
  Nat.div_le_div_right (Nat.mul_le_mul_right n (by norm_num))

theorem splitHi_le (n : ℕ) : splitHi n ≤ n := by
  have h : 9 * n / 10 ≤ 10 * n / 10 :=
    Nat.div_le_div_right (Nat.mul_le_mul_right n (by norm_num))
  simpa [Nat.mul_div_cancel_left n (by norm_num : 0 < 10)] using h

theorem splitter_lengths (shuffled : List α) :
    (splitter shuffled).1.length = splitLo shuffled.length ∧
    (splitter shuffled).2.1.length = splitHi shuffled.length - splitLo shuffled.length ∧
    (splitter shuffled).2.2.length = shuffled.length - splitHi shuffled.length := by
  have hlo := splitLo_le_splitHi shuffled.length
  have hhi := splitHi_le shuffled.length
  refine ⟨?_, ?_, ?_⟩
  · simpa [splitter, npSplit3] using Nat.min_eq_left (hlo.trans hhi)
  · simp only [splitter, npSplit3, List.length_take, List.length_drop]
    exact Nat.min_eq_left (Nat.sub_le_sub_right hhi _)
  · simp [splitter, npSplit3]

theorem splitter_append (shuffled : List α) :
    (splitter shuffled).1 ++ (splitter shuffled).2.1 ++ (splitter shuffled).2.2 =
      shuffled := by
  have hlo := splitLo_le_splitHi shuffled.length
  simp only [splitter, npSplit3]
  rw [List.append_assoc]
  have hdrop : (shuffled.drop (splitLo shuffled.length)).drop
      (splitHi shuffled.length - splitLo shuffled.length) =
      shuffled.drop (splitHi shuffled.length) := by
    rw [List.drop_drop, Nat.add_sub_cancel' hlo]
  rw [← hdrop, List.take_append_drop, List.take_append_drop]

theorem splitter_nodup_append (shuffled : List α) (hnd : shuffled.Nodup) :
    ((splitter shuffled).1 ++ ((splitter shuffled).2.1 ++ (splitter shuffled).2.2)).Nodup := by
  have h := splitter_append shuffled
  rw [List.append_assoc] at h
  rw [h]; exact hnd

/-- **C1.** The Splitter (a fixed-seed shuffle, modelled as any permutation
of the input rows, followed by `np.split` at `int(0.7*n)` and `int(0.9*n)`)
partitions the `n` rows into train/validation/test subsets of sizes
`int(0.7*n)`, `int(0.9*n) - int(0.7*n)` and `n - int(0.9*n)`; the three
subsets together restore exactly the shuffled rows, their sizes sum to `n`,
and (for a duplicate-free dataframe, as produced by `drop_duplicates`) they
are pairwise disjoint, so no record appears in more than one partition. -/
theorem splitter_partitions (orig shuffled : List α)
    (hperm : shuffled.Perm orig) (hnd : orig.Nodup) :
    (splitter shuffled).1.length = splitLo orig.length ∧
    (splitter shuffled).2.1.length = splitHi orig.length - splitLo orig.length ∧
    (splitter shuffled).2.2.length = orig.length - splitHi orig.length ∧
    (splitter shuffled).1.length + (splitter shuffled).2.1.length +
      (splitter shuffled).2.2.length = orig.length ∧
    ((splitter shuffled).1 ++ (splitter shuffled).2.1 ++ (splitter shuffled).2.2).Perm orig ∧
    (∀ x, ¬(x ∈ (splitter shuffled).1 ∧ x ∈ (splitter shuffled).2.1)) ∧
    (∀ x, ¬(x ∈ (splitter shuffled).1 ∧ x ∈ (splitter shuffled).2.2)) ∧
    (∀ x, ¬(x ∈ (splitter shuffled).2.1 ∧ x ∈ (splitter shuffled).2.2)) := by
  have hlen : shuffled.length = orig.length := hperm.length_eq
  have hlo := splitLo_le_splitHi orig.length
  have hhi := splitHi_le orig.length
  obtain ⟨h1, h2, h3⟩ := splitter_lengths shuffled
  rw [hlen] at h1 h2 h3
  have hnd' : shuffled.Nodup := hperm.nodup_iff.mpr hnd
  have hsplit := splitter_nodup_append shuffled hnd'
  rw [List.nodup_append] at hsplit
  obtain ⟨hn1, hn23, hdis1⟩ := hsplit
  rw [List.nodup_append] at hn23
  obtain ⟨hn2, hn3, hdis23⟩ := hn23
  refine ⟨h1, h2, h3, ?_, ?_, ?_, ?_, ?_⟩
  · rw [h1, h2, h3]
    omega
  · rw [splitter_append shuffled]; exact hperm
  · intro x ⟨hx1, hx2⟩
    exact hdis1 hx1 (List.mem_append_left _ hx2)
  · intro x ⟨hx1, hx3⟩
    exact hdis1 hx1 (List.mem_append_right _ hx3)
  · intro x ⟨hx2, hx3⟩
    exact hdis23 hx2 hx3

/-- Witness for C1 at a concrete input: the identity permutation of ten
distinct rows splits into sizes 7, 2, 1. -/
theorem splitter_partitions_witness :
    (splitter [0, 1, 2, 3, 4, 5, 6, 7, 8, 9]).1.length =
        splitLo (10 : ℕ) ∧
      (splitter [0, 1, 2, 3, 4, 5, 6, 7, 8, 9]).2.1.length =
        splitHi (10 : ℕ) - splitLo (10 : ℕ) ∧
      (splitter [0, 1, 2, 3, 4, 5, 6, 7, 8, 9]).2.2.length =
        (10 : ℕ) - splitHi (10 : ℕ) ∧
      (splitter [0, 1, 2, 3, 4, 5, 6, 7, 8, 9]).1.length +
          (splitter [0, 1, 2, 3, 4, 5, 6, 7, 8, 9]).2.1.length +
          (splitter [0, 1, 2, 3, 4, 5, 6, 7, 8, 9]).2.2.length = 10 ∧
      ((splitter [0, 1, 2, 3, 4, 5, 6, 7, 8, 9]).1 ++
          (splitter [0, 1, 2, 3, 4, 5, 6, 7, 8, 9]).2.1 ++
          (splitter [0, 1, 2, 3, 4, 5, 6, 7, 8, 9]).2.2).Perm
        [0, 1, 2, 3, 4, 5, 6, 7, 8, 9] ∧
      (∀ x, ¬(x ∈ (splitter [0, 1, 2, 3, 4, 5, 6, 7, 8, 9]).1 ∧
        x ∈ (splitter [0, 1, 2, 3, 4, 5, 6, 7, 8, 9]).2.1)) ∧
      (∀ x, ¬(x ∈ (splitter [0, 1, 2, 3, 4, 5, 6, 7, 8, 9]).1 ∧
        x ∈ (splitter [0, 1, 2, 3, 4, 5, 6, 7, 8, 9]).2.2)) ∧
      (∀ x, ¬(x ∈ (splitter [0, 1, 2, 3, 4, 5, 6, 7, 8, 9]).2.1 ∧
        x ∈ (splitter [0, 1, 2, 3, 4, 5, 6, 7, 8, 9]).2.2)) := by
  have h := splitter_partitions (α := ℕ) [0, 1, 2, 3, 4, 5, 6, 7, 8, 9]
    [0, 1, 2, 3, 4, 5, 6, 7, 8, 9] (by decide) (by decide)
  simpa using h

/-! ## Threshold rule: `pred_y = np.round(batch_output)` -/

/-- `np.round` with no decimals argument: round to the nearest integer,
halves to the nearest even integer (IEEE round-half-even, which is what
numpy implements). Scores are modelled as exact rationals. -/
def npRound (x : ℚ) : ℤ :=
  if x - ⌊x⌋ < 1 / 2 then ⌊x⌋
  else if 1 / 2 < x - ⌊x⌋ then ⌊x⌋ + 1
  else if ⌊x⌋ % 2 = 0 then ⌊x⌋ else ⌊x⌋ + 1

theorem npRound_eq_zero {s : ℚ} (h0 : 0 ≤ s) (h1 : s ≤ 1 / 2) : npRound s = 0 := by
  have hfl : ⌊s⌋ = 0 := by
    rw [Int.floor_eq_zero_iff]
    exact ⟨h0, lt_of_le_of_lt h1 (by norm_num)⟩
  unfold npRound
  rw [hfl]
  push_cast
  split_ifs with hc1 hc2
  · rfl
  · exfalso; linarith
  · rfl

theorem npRound_eq_one {s : ℚ} (h0 : 1 / 2 < s) (h1 : s ≤ 1) : npRound s = 1 := by
  rcases lt_or_eq_of_le h1 with h | h
  · have hfl : ⌊s⌋ = 0 := by
      rw [Int.floor_eq_zero_iff]
      exact ⟨le_of_lt (lt_trans (by norm_num) h0), h⟩
    unfold npRound
    rw [hfl]
    push_cast
    split_ifs with hc1 hc2
    · exfalso; linarith
    · rfl
    · exfalso; linarith
  · subst h
    have hfl : ⌊(1 : ℚ)⌋ = 1 := Int.floor_one
    unfold npRound
    rw [hfl]
    norm_num

/-- **C2.** The predicted binary label is produced by `np.round` on the
continuous score, i.e. rounding at the fixed threshold 0.5: every score
in `[0, 1]` strictly below 0.5 maps to label 0 and every score strictly
above 0.5 maps to label 1. (`npRound` takes no threshold parameter: the
0.5 cutoff is fixed, exactly as `np.round` is in the notebook.) -/
theorem npRound_threshold (s : ℚ) (h0 : 0 ≤ s) (h1 : s ≤ 1) :
    (s < 1 / 2 → npRound s = 0) ∧ (1 / 2 < s → npRound s = 1) :=
  ⟨fun h => npRound_eq_zero h0 (le_of_lt h),
   fun h => npRound_eq_one h h1⟩

/-- Witness for C2: a score of 0.3 rounds to 0 and a score of 0.8 rounds
to 1. -/
theorem npRound_threshold_witness :
    ((3 : ℚ) / 10 < 1 / 2 → npRound ((3 : ℚ) / 10) = 0) ∧
      ((1 : ℚ) / 2 < 8 / 10 → npRound ((8 : ℚ) / 10) = 1) :=
  ⟨fun h => ((npRound_threshold ((3 : ℚ) / 10) (by norm_num) (by norm_num)).1 h),
   fun h => ((npRound_threshold ((8 : ℚ) / 10) (by norm_num) (by norm_num)).2 h)⟩

/-- **C3.** Thresholding is monotonic: for prediction scores
`s1 ≤ s2` (both in the probability range `[0, 1]`), if `s1` rounds to
label 1 then so does `s2`; increasing a score never flips its rounded
label from 1 to 0. -/
theorem npRound_monotone (s1 s2 : ℚ) (h0 : 0 ≤ s1) (h1 : s2 ≤ 1)
    (hle : s1 ≤ s2) (hlab : npRound s1 = 1) : npRound s2 = 1 := by
  by_contra hne
  have hhalf : s1 ≤ 1 / 2 ∨ 1 / 2 < s1 := le_or_lt s1 (1 / 2)
  rcases hhalf with h | h
  · rw [npRound_eq_zero h0 h] at hlab
    exact absurd hlab (by norm_num)
  · exact hne (npRound_eq_one (lt_of_lt_of_le h hle) h1)

/-- Witness for C3: with scores 0.6 ≤ 0.7, the label 1 at 0.6 forces
label 1 at 0.7. -/
theorem npRound_monotone_witness : npRound ((7 : ℚ) / 10) = 1 :=
  npRound_monotone ((6 : ℚ) / 10) ((7 : ℚ) / 10) (by norm_num) (by norm_num)
    (by norm_num) (npRound_eq_one (by norm_num) (by norm_num))

/-! ## Duplicate-row removal: `churn = churn.drop_duplicates()` -/

variable {α : Type _} [DecidableEq α]

/-- Scan the rows in order, keeping a row only when it has not been seen
before (the set of already-kept rows is the `seen` accumulator). This is
the semantics of `DataFrame.drop_duplicates()` with its default
`keep='first'`. -/
def dropDuplicatesAux (seen : List α) : List α → List α
  | [] => []
  | x :: xs =>
      if x ∈ seen then dropDuplicatesAux seen xs
      else x :: dropDuplicatesAux (x :: seen) xs

/-- `df.drop_duplicates()`: exact row-level deduplication keeping first
occurrences. -/
def drop_duplicates (l : List α) : List α := dropDuplicatesAux [] l

theorem mem_dropDuplicatesAux {x : α} :
    ∀ (seen l : List α), x ∈ dropDuplicatesAux seen l ↔ x ∈ l ∧ x ∉ seen := by
  intro seen l
  induction l generalizing seen with
  | nil => simp [dropDuplicatesAux]
  | cons y ys ih =>
      by_cases hy : y ∈ seen
      · rw [dropDuplicatesAux, if_pos hy, ih]
        constructor
        · rintro ⟨hmem, hns⟩
          exact ⟨List.mem_cons_of_mem y hmem, hns⟩
        · rintro ⟨hmem, hns⟩
          rcases List.mem_cons.mp hmem with h | h
          · exact absurd hy (h ▸ hns)
          · exact ⟨h, hns⟩
      · rw [dropDuplicatesAux, if_neg hy]
        rw [List.mem_cons, ih, List.mem_cons, List.mem_cons]
        constructor
        · rintro (h | ⟨hmem, hns⟩)
          · exact ⟨Or.inl h, h ▸ hy⟩
          · exact ⟨Or.inr hmem, fun hs => hns (Or.inr hs)⟩
        · rintro ⟨h | h, hns⟩
          · exact Or.inl h
          · by_cases hx : x = y
            · exact Or.inl hx
            · exact Or.inr ⟨h, fun hs => hns (hs.resolve_left hx)⟩

theorem nodup_dropDuplicatesAux :
    ∀ (seen l : List α), (dropDuplicatesAux seen l).Nodup := by
  intro seen l
  induction l generalizing seen with
  | nil => simp [dropDuplicatesAux]
  | cons y ys ih =>
      by_cases hy : y ∈ seen
      · rw [dropDuplicatesAux, if_pos hy]
        exact ih seen
      · rw [dropDuplicatesAux, if_neg hy]
        refine List.nodup_cons.mpr ⟨?_, ih (y :: seen)⟩
        rw [mem_dropDuplicatesAux]
        rintro ⟨_, hns⟩
        exact hns (List.mem_cons_self y seen)

theorem dropDuplicatesAux_sublist :
    ∀ (seen l : List α), (dropDuplicatesAux seen l).Sublist l := by
  intro seen l
  induction l generalizing seen with
  | nil => simp [dropDuplicatesAux]
  | cons y ys ih =>
      by_cases hy : y ∈ seen
      · rw [dropDuplicatesAux, if_pos hy]
        exact (ih seen).cons y
      · rw [dropDuplicatesAux, if_neg hy]
        exact (ih (y :: seen)).cons₂ y

theorem dropDuplicatesAux_eq_self {l : List α} (hnd : l.Nodup) :
    ∀ seen : List α, (∀ x ∈ l, x ∉ seen) → dropDuplicatesAux seen l = l := by
  induction l with
  | nil => intro seen _; rfl
  | cons y ys ih =>
      intro seen hdis
      rw [List.nodup_cons] at hnd
      rw [dropDuplicatesAux, if_neg (hdis y (List.mem_cons_self y ys))]
      congr 1
      refine ih hnd.2 (y :: seen) ?_
      intro x hx hmem
      rcases List.mem_cons.mp hmem with h | h
      · exact hnd.1 (h ▸ hx)
      · exact hdis x (List.mem_cons_of_mem y hx) h

/-- **C4.** Duplicate-row removal is idempotent: applying
`drop_duplicates` twice yields exactly the same list of rows (hence the
same row count) as applying it once. -/
theorem drop_duplicates_idempotent (l : List α) :
    drop_duplicates (drop_duplicates l) = drop_duplicates l ∧
      (drop_duplicates (drop_duplicates l)).length = (drop_duplicates l).length := by
  have h : drop_duplicates (drop_duplicates l) = drop_duplicates l := by
    unfold drop_duplicates
    exact dropDuplicatesAux_eq_self (nodup_dropDuplicatesAux [] l) []
      (fun x _ hx => (List.not_mem_nil x) hx)
  exact ⟨h, by rw [h]⟩

/-- The specification's description of deduplication: keep the first
occurrence of each distinct row and remove every later row equal to an
earlier one, preserving the order of the kept rows. -/
def keepFirstOccurrences : List α → List α
  | [] => []
  | x :: xs => x :: keepFirstOccurrences (xs.filter (fun y => y ≠ x))
termination_by l => l.length
decreasing_by
  exact Nat.lt_succ_of_le (List.length_filter_le _ xs)

theorem dropDuplicatesAux_eq_keepFirst :
    ∀ (l seen : List α),
      dropDuplicatesAux seen l = keepFirstOccurrences (l.filter (fun y => y ∉ seen)) := by
  intro l
  induction l with
  | nil => intro seen; simp [dropDuplicatesAux, keepFirstOccurrences]
  | cons y ys ih =>
      intro seen
      by_cases hy : y ∈ seen
      · rw [dropDuplicatesAux, if_pos hy, List.filter_cons,
          if_neg (by simpa using hy)]
        exact ih seen
      · rw [dropDuplicatesAux, if_neg hy, List.filter_cons,
          if_pos (by simpa using hy), keepFirstOccurrences, List.filter_filter]
        rw [ih (y :: seen)]
        have hfil : ys.filter (fun z => decide (z ∉ y :: seen)) =
            ys.filter (fun a => decide (a ≠ y) && decide (a ∉ seen)) := by
          apply List.filter_congr
          intro x _
          by_cases h1 : x = y <;> by_cases h2 : x ∈ seen <;> simp [h1, h2]
        rw [hfil]

/-- **C5.** `drop_duplicates` performs exact row-level deduplication that
keeps the first occurrence of each distinct row (it coincides with the
specification recursion `keepFirstOccurrences`), removes every later row
equal to an earlier one (the result is duplicate-free while retaining
exactly the distinct rows of the input), and preserves the relative order
of the kept rows (the result is a sublist of the input). -/
theorem drop_duplicates_keeps_first (l : List α) :
    drop_duplicates l = keepFirstOccurrences l ∧
      (drop_duplicates l).Sublist l ∧
      (drop_duplicates l).Nodup ∧
      (∀ x, x ∈ drop_duplicates l ↔ x ∈ l) := by
  refine ⟨?_, dropDuplicatesAux_sublist [] l, nodup_dropDuplicatesAux [] l, ?_⟩
  · unfold drop_duplicates
    rw [dropDuplicatesAux_eq_keepFirst]
    congr 1
    refine List.filter_eq_self.mpr ?_
    intro a _
    simp
  · intro x
    unfold drop_duplicates
    rw [mem_dropDuplicatesAux]
    simp

/-! ## One-hot encoding: `model_data = pd.get_dummies(churn)` -/

/-- A dataframe cell: numeric or categorical (object dtype). -/
inductive Cell where
  | num (q : ℚ)
  | cat (s : String)
deriving DecidableEq

/-- A raw dataframe row: named columns holding numeric or categorical
cells. -/
abbrev RawRow := List (String × Cell)

/-- The name `pd.get_dummies` gives the indicator column for category `t`
of column `c`. -/
def dummyName (c t : String) : String := c ++ "_" ++ t

/-- The indicator columns `pd.get_dummies` produces for one categorical
cell: one column per category of the field, holding 1 exactly at the
cell's value. -/
def dummyCols (cats : List String) (c : String) (v : String) : List (String × ℚ) :=
  cats.map (fun t => (dummyName c t, if v = t then 1 else 0))

theorem indicatorValues_sum_of_not_mem {v : String} {cs : List String} (h : v ∉ cs) :
    (cs.map (fun t => if v = t then (1 : ℚ) else 0)).sum = 0 := by
  induction cs with
  | nil => rfl
  | cons c cs ih =>
      rw [List.mem_cons, not_or] at h
      simp only [List.map_cons, List.sum_cons, if_neg h.1, ih h.2, add_zero]

theorem indicatorValues_sum {v : String} {cs : List String}
    (hnd : cs.Nodup) (hv : v ∈ cs) :
    (cs.map (fun t => if v = t then (1 : ℚ) else 0)).sum = 1 := by
  induction cs with
  | nil => cases hv
  | cons c cs ih =>
      rw [List.nodup_cons] at hnd
      rcases List.mem_cons.mp hv with h | h
      · subst h
        simp only [List.map_cons, List.sum_cons]
        rw [indicatorValues_sum_of_not_mem hnd.1]
        simp
      · have hvc : v ≠ c := fun he => hnd.1 (he ▸ h)
        simp only [List.map_cons, List.sum_cons, if_neg hvc, ih hnd.2 h, zero_add]

theorem indicatorValues_count_of_not_mem {v : String} {cs : List String} (h : v ∉ cs) :
    (cs.map (fun t => if v = t then (1 : ℚ) else 0)).count 1 = 0 := by
  induction cs with
  | nil => rfl
  | cons c cs ih =>
      rw [List.mem_cons, not_or] at h
      rw [List.map_cons, List.count_cons, ih h.2, if_neg (by simp [if_neg h.1])]

theorem indicatorValues_count {v : String} {cs : List String}
    (hnd : cs.Nodup) (hv : v ∈ cs) :
    (cs.map (fun t => if v = t then (1 : ℚ) else 0)).count 1 = 1 := by
  induction cs with
  | nil => cases hv
  | cons c cs ih =>
      rw [List.nodup_cons] at hnd
      rcases List.mem_cons.mp hv with h | h
      · subst h
        rw [List.map_cons, List.count_cons, if_pos (by simp),
          indicatorValues_count_of_not_mem hnd.1]
      · have hvc : v ≠ c := fun he => hnd.1 (he ▸ h)
        rw [List.map_cons, List.count_cons, ih hnd.2 h, if_neg (by simp [if_neg hvc])]

/-- **C6.** For every categorical field and every row, the indicator
columns `pd.get_dummies` produces for that field are mutually exclusive —
every indicator is 0 or 1 and exactly one of them equals 1 (so at most
one is 1) — and they sum to exactly 1. (`cats` is the category list
pandas infers for the field, which is duplicate-free and contains the
row's value.) -/
theorem get_dummies_one_hot (cats : List String) (c v : String)
    (hnd : cats.Nodup) (hv : v ∈ cats) :
    ((dummyCols cats c v).map Prod.snd).sum = 1 ∧
      (∀ q ∈ (dummyCols cats c v).map Prod.snd, q = 0 ∨ q = 1) ∧
      ((dummyCols cats c v).map Prod.snd).count 1 = 1 := by
  have hmap : (dummyCols cats c v).map Prod.snd =
      cats.map (fun t => if v = t then (1 : ℚ) else 0) := by
    rw [dummyCols, List.map_map]
    rfl
  rw [hmap]
  refine ⟨indicatorValues_sum hnd hv, ?_, indicatorValues_count hnd hv⟩
  intro q hq
  rcases List.mem_map.mp hq with ⟨t, _, ht⟩
  by_cases h : v = t
  · right; rw [← ht, if_pos h]
  · left; rw [← ht, if_neg h]

/-- Witness for C6: the international-plan field with categories
`["no", "yes"]` and value `"yes"` yields indicators summing to 1 with
exactly one 1. -/
theorem get_dummies_one_hot_witness :
    ((dummyCols ["no", "yes"] "Intl Plan" "yes").map Prod.snd).sum = 1 ∧
      (∀ q ∈ (dummyCols ["no", "yes"] "Intl Plan" "yes").map Prod.snd,
        q = 0 ∨ q = 1) ∧
      ((dummyCols ["no", "yes"] "Intl Plan" "yes").map Prod.snd).count 1 = 1 :=
  get_dummies_one_hot ["no", "yes"] "Intl Plan" "yes" (by decide) (by decide)

/-- The numeric columns pass through `pd.get_dummies` unchanged and come
first in the encoded frame. -/
def numericCols (r : RawRow) : List (String × ℚ) :=
  r.filterMap (fun p => match p.2 with | .num q => some (p.1, q) | .cat _ => none)

/-- `pd.get_dummies` on one row: the numeric columns first, then the
dummy columns of each categorical column in column order. `catsFor c` is
the (sorted) category list pandas infers for column `c` from the whole
frame. -/
def get_dummies_row (catsFor : String → List String) (r : RawRow) :
    List (String × ℚ) :=
  numericCols r ++
    r.flatMap (fun p =>
      match p.2 with | .num _ => [] | .cat v => dummyCols (catsFor p.1) p.1 v)

/-- `df.drop(names, axis=1)`: remove the named columns. -/
def dropCols (names : List String) (d : List (String × ℚ)) : List (String × ℚ) :=
  d.filter (fun p => decide (p.1 ∉ names))

/-- Cell `model_data = pd.concat([model_data['Churn?_True.'],
model_data.drop(['Churn?_False.', 'Churn?_True.'], axis=1)], axis=1)`:
the encoded target indicator `Churn?_True.` is selected and prepended to
the encoded frame with both churn dummy columns dropped. -/
def model_data_row (catsFor : String → List String) (r : RawRow) :
    List (String × ℚ) :=
  match (get_dummies_row catsFor r).find? (fun p => p.1 == "Churn?_True.") with
  | some p =>
      p :: dropCols ["Churn?_False.", "Churn?_True."] (get_dummies_row catsFor r)
  | none => dropCols ["Churn?_False.", "Churn?_True."] (get_dummies_row catsFor r)

theorem get_dummies_row_append_churn (catsFor : String → List String)
    (front : RawRow) (v : String) :
    get_dummies_row catsFor (front ++ [("Churn?", Cell.cat v)]) =
      get_dummies_row catsFor front ++ dummyCols (catsFor "Churn?") "Churn?" v := by
  unfold get_dummies_row numericCols
  rw [List.filterMap_append, List.flatMap_append]
  simp only [List.filterMap_cons, List.flatMap_cons, List.filterMap_nil,
    List.flatMap_nil, List.append_nil]
  rw [List.append_assoc]

/-- **C10.** After `pd.get_dummies`, the binary target appears exactly
once in `model_data`, as its first column: encoding the `Churn?` column
(categories `["False.", "True."]`, placed last in the raw row) yields the
two indicators `Churn?_False.` and `Churn?_True.`; the construction drops
`Churn?_False.`, moves `Churn?_True.` — equal to 1 exactly when the
customer churned — to position 0, and keeps all other encoded columns (in
order). The freshness hypothesis says no other column of the frame is
named like a churn dummy. -/
theorem model_data_row_target_first (catsFor : String → List String)
    (front : RawRow) (v : String)
    (hcats : catsFor "Churn?" = ["False.", "True."])
    (hfresh : ∀ p ∈ get_dummies_row catsFor front,
      p.1 ≠ "Churn?_True." ∧ p.1 ≠ "Churn?_False.") :
    model_data_row catsFor (front ++ [("Churn?", Cell.cat v)]) =
        ("Churn?_True.", if v = "True." then 1 else 0) ::
          get_dummies_row catsFor front ∧
      (model_data_row catsFor (front ++ [("Churn?", Cell.cat v)])).countP
        (fun p => p.1 == "Churn?_True.") = 1 ∧
      (∀ p ∈ model_data_row catsFor (front ++ [("Churn?", Cell.cat v)]),
        p.1 ≠ "Churn?_False.") := by
  have hchurnD : dummyCols (catsFor "Churn?") "Churn?" v =
      [("Churn?_False.", if v = "False." then 1 else 0),
       ("Churn?_True.", if v = "True." then 1 else 0)] := by
    rw [hcats]; rfl
  have hd := get_dummies_row_append_churn catsFor front v
  rw [hchurnD] at hd
  have hfind : (get_dummies_row catsFor (front ++ [("Churn?", Cell.cat v)])).find?
      (fun p => p.1 == "Churn?_True.") =
      some ("Churn?_True.", if v = "True." then 1 else 0) := by
    rw [hd, List.find?_append]
    have hnone : (get_dummies_row catsFor front).find?
        (fun p => p.1 == "Churn?_True.") = none := by
      rw [List.find?_eq_none]
      intro p hp
      simpa using (hfresh p hp).1
    rw [hnone]
    rfl
  have hdropD : dropCols ["Churn?_False.", "Churn?_True."]
      (get_dummies_row catsFor (front ++ [("Churn?", Cell.cat v)])) =
      get_dummies_row catsFor front := by
    rw [hd]
    unfold dropCols
    rw [List.filter_append]
    have h1 : (get_dummies_row catsFor front).filter
        (fun p => decide (p.1 ∉ ["Churn?_False.", "Churn?_True."])) =
        get_dummies_row catsFor front := by
      refine List.filter_eq_self.mpr ?_
      intro p hp
      have := hfresh p hp
      simp [this.1, this.2]
    have h2 : List.filter
        (fun p => decide (p.1 ∉ ["Churn?_False.", "Churn?_True."]))
        [("Churn?_False.", if v = "False." then (1 : ℚ) else 0),
         ("Churn?_True.", if v = "True." then (1 : ℚ) else 0)] = [] := by
      rfl
    rw [h1, h2, List.append_nil]
  have hmain : model_data_row catsFor (front ++ [("Churn?", Cell.cat v)]) =
      ("Churn?_True.", if v = "True." then 1 else 0) ::
        get_dummies_row catsFor front := by
    unfold model_data_row
    rw [hfind, hdropD]
  refine ⟨hmain, ?_, ?_⟩
  · rw [hmain, List.countP_cons]
    have hzero : (get_dummies_row catsFor front).countP
        (fun p => p.1 == "Churn?_True.") = 0 := by
      rw [List.countP_eq_zero]
      intro p hp
      simpa using (hfresh p hp).1
    rw [hzero]
    rfl
  · rw [hmain]
    intro p hp
    rcases List.mem_cons.mp hp with h | h
    · rw [h]
      show ¬("Churn?_True." : String) = "Churn?_False."
      decide
    · exact (hfresh p h).2

/-- Witness for C10 at a concrete row: one numeric column and one other
categorical column ahead of the churned target. -/
theorem model_data_row_target_first_witness :
    model_data_row
        (fun c => if c = "Churn?" then ["False.", "True."]
          else if c = "VMail Plan" then ["no", "yes"] else [])
        ([("Day Mins", Cell.num 120), ("VMail Plan", Cell.cat "yes")] ++
          [("Churn?", Cell.cat "True.")]) =
        ("Churn?_True.", if ("True." : String) = "True." then 1 else 0) ::
          get_dummies_row
            (fun c => if c = "Churn?" then ["False.", "True."]
              else if c = "VMail Plan" then ["no", "yes"] else [])
            [("Day Mins", Cell.num 120), ("VMail Plan", Cell.cat "yes")] ∧
      (model_data_row
          (fun c => if c = "Churn?" then ["False.", "True."]
            else if c = "VMail Plan" then ["no", "yes"] else [])
          ([("Day Mins", Cell.num 120), ("VMail Plan", Cell.cat "yes")] ++
            [("Churn?", Cell.cat "True.")])).countP
        (fun p => p.1 == "Churn?_True.") = 1 ∧
      (∀ p ∈ model_data_row
          (fun c => if c = "Churn?" then ["False.", "True."]
            else if c = "VMail Plan" then ["no", "yes"] else [])
          ([("Day Mins", Cell.num 120), ("VMail Plan", Cell.cat "yes")] ++
            [("Churn?", Cell.cat "True.")]),
        p.1 ≠ "Churn?_False.") :=
  model_data_row_target_first
    (fun c => if c = "Churn?" then ["False.", "True."]
      else if c = "VMail Plan" then ["no", "yes"] else [])
    [("Day Mins", Cell.num 120), ("VMail Plan", Cell.cat "yes")]
    "True." (by rfl) (by decide)

/-! ## Written datasets: `train.csv`, `validation.csv` and
    `test_data_Batch.csv` -/

/-- A model-dataset row: the binary label (column 0, `Churn?_True.`, the
layout established by `model_data_row`) followed by the feature values. -/
def toCsvRow (p : ℚ × List ℚ) : List ℚ := p.1 :: p.2

/-- `train_data.to_csv('train.csv', header=False, index=False)` (and the
same call for `validation.csv`): every column of the split, the label
included, is written. -/
def splitCsvRows (split : List (ℚ × List ℚ)) : List (List ℚ) :=
  split.map toCsvRow

/-- `test_data_batch = test_data.iloc[:, 1:]`: the batch-scoring input
drops column 0 (the target) and keeps all remaining columns. -/
def batchCsvRows (test : List (ℚ × List ℚ)) : List (List ℚ) :=
  (test.map toCsvRow).map (fun r => r.drop 1)

/-- **C8.** The label column is present in the datasets written for the
training and validation splits — the first cell of every written row is
that row's label — and absent from the dataset submitted for batch
scoring: every row of the batch input consists of exactly the non-label
columns of the corresponding test-split row. -/
theorem batch_input_has_no_label (train valid test : List (ℚ × List ℚ)) (i : ℕ) :
    ((splitCsvRows train).get? i).map List.head? =
        (train.get? i).map (fun p => some p.1) ∧
      ((splitCsvRows valid).get? i).map List.head? =
        (valid.get? i).map (fun p => some p.1) ∧
      (batchCsvRows test).length = test.length ∧
      (batchCsvRows test).get? i = (test.get? i).map Prod.snd := by
  refine ⟨?_, ?_, ?_, ?_⟩
  · rw [splitCsvRows, List.get?_map, Option.map_map]
    rfl
  · rw [splitCsvRows, List.get?_map, Option.map_map]
    rfl
  · simp [batchCsvRows]
  · rw [batchCsvRows, List.get?_map, List.get?_map, Option.map_map]
    rfl

/-! ## Evaluator: `get_score(y_true, y_pred)` -/

/-- One step of `metrics.confusion_matrix`: bump the count of the
quadrant the pair `(actual, predicted)` falls in; the accumulator is the
raveled `(tn, fp, fn, tp)`. -/
def confusionStep (acc : ℕ × ℕ × ℕ × ℕ) (p : Bool × Bool) : ℕ × ℕ × ℕ × ℕ :=
  match p with
  | (false, false) => (acc.1 + 1, acc.2.1, acc.2.2.1, acc.2.2.2)
  | (false, true) => (acc.1, acc.2.1 + 1, acc.2.2.1, acc.2.2.2)
  | (true, false) => (acc.1, acc.2.1, acc.2.2.1 + 1, acc.2.2.2)
  | (true, true) => (acc.1, acc.2.1, acc.2.2.1, acc.2.2.2 + 1)

/-- `metrics.confusion_matrix(y_true, y_pred).ravel()`: the counts
`(tn, fp, fn, tp)` accumulated over the paired labels. -/
def confusionCounts (pairs : List (Bool × Bool)) : ℕ × ℕ × ℕ × ℕ :=
  pairs.foldl confusionStep (0, 0, 0, 0)

/-- The notebook's `get_score(y_true, y_pred)`: sklearn's precision,
recall, F1 and accuracy (each equal to 0 when its denominator vanishes,
which `ℚ`'s `x / 0 = 0` matches) together with the raveled
confusion-matrix counts, returned as
`(precision, recall, f1, accuracy, tn, fp, fn, tp)`. -/
def get_score (y_true y_pred : List Bool) : ℚ × ℚ × ℚ × ℚ × ℕ × ℕ × ℕ × ℕ :=
  match confusionCounts (y_true.zip y_pred) with
  | (tn, fp, fn, tp) =>
      ((tp : ℚ) / ((tp : ℚ) + fp),
       (tp : ℚ) / ((tp : ℚ) + fn),
       2 * ((tp : ℚ) / ((tp : ℚ) + fp)) * ((tp : ℚ) / ((tp : ℚ) + fn)) /
         ((tp : ℚ) / ((tp : ℚ) + fp) + (tp : ℚ) / ((tp : ℚ) + fn)),
       ((tp : ℚ) + tn) / ((tp : ℚ) + fp + tn + fn),
       tn, fp, fn, tp)

/-- True positives derived from predicted vs. actual labels. -/
def truePositives (y_true y_pred : List Bool) : ℕ :=
  (y_true.zip y_pred).countP (fun p => p.1 && p.2)

/-- False positives derived from predicted vs. actual labels. -/
def falsePositives (y_true y_pred : List Bool) : ℕ :=
  (y_true.zip y_pred).countP (fun p => !p.1 && p.2)

/-- False negatives derived from predicted vs. actual labels. -/
def falseNegatives (y_true y_pred : List Bool) : ℕ :=
  (y_true.zip y_pred).countP (fun p => p.1 && !p.2)

/-- True negatives derived from predicted vs. actual labels. -/
def trueNegatives (y_true y_pred : List Bool) : ℕ :=
  (y_true.zip y_pred).countP (fun p => !p.1 && !p.2)

theorem confusionFoldl (pairs : List (Bool × Bool)) :
    ∀ acc : ℕ × ℕ × ℕ × ℕ,
      pairs.foldl confusionStep acc =
        (acc.1 + pairs.countP (fun p => !p.1 && !p.2),
         acc.2.1 + pairs.countP (fun p => !p.1 && p.2),
         acc.2.2.1 + pairs.countP (fun p => p.1 && !p.2),
         acc.2.2.2 + pairs.countP (fun p => p.1 && p.2)) := by
  induction pairs with
  | nil => intro acc; simp
  | cons q qs ih =>
      intro acc
      rcases q with ⟨a, b⟩
      rw [List.foldl_cons, ih]
      cases a <;> cases b <;>
        simp [confusionStep, List.countP_cons] <;> omega

theorem confusionCounts_eq (y_true y_pred : List Bool) :
    confusionCounts (y_true.zip y_pred) =
      (trueNegatives y_true y_pred, falsePositives y_true y_pred,
       falseNegatives y_true y_pred, truePositives y_true y_pred) := by
  unfold confusionCounts trueNegatives falsePositives falseNegatives truePositives
  rw [confusionFoldl]
  simp

theorem countP_partition_four (pairs : List (Bool × Bool)) :
    pairs.countP (fun p => p.1 && p.2) + pairs.countP (fun p => !p.1 && p.2) +
        pairs.countP (fun p => !p.1 && !p.2) +
        pairs.countP (fun p => p.1 && !p.2) =
      pairs.length := by
  induction pairs with
  | nil => rfl
  | cons q qs ih =>
      rcases q with ⟨a, b⟩
      cases a <;> cases b <;>
        simp [List.countP_cons] <;> omega

/-- **C7.** For every pair of equal-length binary label vectors, the
evaluator's `get_score` returns the standard precision `tp/(tp+fp)`,
recall `tp/(tp+fn)`, F1 (the harmonic mean `2pr/(p+r)` of precision and
recall), accuracy `(tp+tn)/(tp+fp+tn+fn)` and the confusion-matrix counts
`tn, fp, fn, tp`, all derived by counting the predicted-versus-actual
label pairs; the four counts sum to the number of labels. -/
theorem get_score_standard_metrics (y_true y_pred : List Bool)
    (hlen : y_true.length = y_pred.length) :
    get_score y_true y_pred =
        (((truePositives y_true y_pred : ℚ) /
            ((truePositives y_true y_pred : ℚ) + falsePositives y_true y_pred)),
         ((truePositives y_true y_pred : ℚ) /
            ((truePositives y_true y_pred : ℚ) + falseNegatives y_true y_pred)),
         (2 * ((truePositives y_true y_pred : ℚ) /
              ((truePositives y_true y_pred : ℚ) + falsePositives y_true y_pred)) *
            ((truePositives y_true y_pred : ℚ) /
              ((truePositives y_true y_pred : ℚ) + falseNegatives y_true y_pred)) /
            (((truePositives y_true y_pred : ℚ) /
                ((truePositives y_true y_pred : ℚ) + falsePositives y_true y_pred)) +
              ((truePositives y_true y_pred : ℚ) /
                ((truePositives y_true y_pred : ℚ) + falseNegatives y_true y_pred)))),
         (((truePositives y_true y_pred : ℚ) + trueNegatives y_true y_pred) /
            ((truePositives y_true y_pred : ℚ) + falsePositives y_true y_pred +
              trueNegatives y_true y_pred + falseNegatives y_true y_pred)),
         trueNegatives y_true y_pred, falsePositives y_true y_pred,
         falseNegatives y_true y_pred, truePositives y_true y_pred) ∧
      truePositives y_true y_pred + falsePositives y_true y_pred +
          trueNegatives y_true y_pred + falseNegatives y_true y_pred =
        y_true.length := by
  constructor
  · unfold get_score
    rw [confusionCounts_eq]
  · unfold truePositives falsePositives trueNegatives falseNegatives
    rw [countP_partition_four]
    rw [List.length_zip, hlen, Nat.min_self]

/-- Witness for C7: actual labels `[1,1,0,0]` against predictions
`[1,0,1,0]` give one count in every confusion quadrant, all metrics 1/2,
and counts summing to 4. -/
theorem get_score_standard_metrics_witness :
    get_score [true, true, false, false] [true, false, true, false] =
        (((truePositives [true, true, false, false] [true, false, true, false] : ℚ) /
            ((truePositives [true, true, false, false] [true, false, true, false] : ℚ) +
              falsePositives [true, true, false, false] [true, false, true, false])),
         ((truePositives [true, true, false, false] [true, false, true, false] : ℚ) /
            ((truePositives [true, true, false, false] [true, false, true, false] : ℚ) +
              falseNegatives [true, true, false, false] [true, false, true, false])),
         (2 * ((truePositives [true, true, false, false] [true, false, true, false] : ℚ) /
              ((truePositives [true, true, false, false] [true, false, true, false] : ℚ) +
                falsePositives [true, true, false, false] [true, false, true, false])) *
            ((truePositives [true, true, false, false] [true, false, true, false] : ℚ) /
              ((truePositives [true, true, false, false] [true, false, true, false] : ℚ) +
                falseNegatives [true, true, false, false] [true, false, true, false])) /
            (((truePositives [true, true, false, false] [true, false, true, false] : ℚ) /
                ((truePositives [true, true, false, false] [true, false, true, false] : ℚ) +
                  falsePositives [true, true, false, false] [true, false, true, false])) +
              ((truePositives [true, true, false, false] [true, false, true, false] : ℚ) /
                ((truePositives [true, true, false, false] [true, false, true, false] : ℚ) +
                  falseNegatives [true, true, false, false] [true, false, true, false])))),
         (((truePositives [true, true, false, false] [true, false, true, false] : ℚ) +
              trueNegatives [true, true, false, false] [true, false, true, false]) /
            ((truePositives [true, true, false, false] [true, false, true, false] : ℚ) +
              falsePositives [true, true, false, false] [true, false, true, false] +
              trueNegatives [true, true, false, false] [true, false, true, false] +
              falseNegatives [true, true, false, false] [true, false, true, false])),
         trueNegatives [true, true, false, false] [true, false, true, false],
         falsePositives [true, true, false, false] [true, false, true, false],
         falseNegatives [true, true, false, false] [true, false, true, false],
         truePositives [true, true, false, false] [true, false, true, false]) ∧
      truePositives [true, true, false, false] [true, false, true, false] +
          falsePositives [true, true, false, false] [true, false, true, false] +
          trueNegatives [true, true, false, false] [true, false, true, false] +
          falseNegatives [true, true, false, false] [true, false, true, false] =
        ([true, true, false, false] : List Bool).length :=
  get_score_standard_metrics [true, true, false, false] [true, false, true, false]
    (by decide)

/-! ## The evaluation cell's name environment -/

/-- Every top-level name bound by the notebook's code cells that run
before the evaluation cell `get_score(test_y, pred_y)`: assignment
targets, tuple-unpacking targets, loop variables and imported names, in
order of first binding. -/
def namesDefinedBeforeEvaluation : List String :=
  ["bucket", "prefix", "boto3", "re", "get_execution_role", "role",
   "pd", "np", "plt", "sns", "io", "os", "sys", "time", "json",
   "metrics", "display", "strftime", "gmtime", "sagemaker",
   "csv_serializer", "churn", "categorial_variable",
   "continuous_variable", "colours", "column", "table", "fig", "ax",
   "hist", "f", "model_data", "train_data", "validation_data",
   "test_data", "get_image_uri", "container", "s3_input_train",
   "s3_input_validation", "model_name", "sess", "xgb", "train_y",
   "train_X", "valid_y", "valid_X", "xgboost", "customised_xgb",
   "model_file_name", "fObj", "key", "model_url",
   "customised_model_name", "test_data_batch", "s3_batch_input",
   "s3_batch_output", "transformer", "batch_output", "pred_y",
   "get_score"]

/-- The names the metric-computation call
`get_score(test_y, pred_y)` reads, in evaluation order. -/
def evaluationCellReads : List String := ["get_score", "test_y", "pred_y"]

/-- Python name resolution: a cell raises `NameError` at the first name
it reads that is not bound in the environment. -/
def firstUndefinedName (env cellReads : List String) : Option String :=
  cellReads.find? (fun n => !env.contains n)

/-- A cell runs to completion only when every name it reads is bound. -/
def cellRuns (env cellReads : List String) : Bool :=
  (firstUndefinedName env cellReads).isNone

/-- **C9.** The evaluation step can never produce a metrics result: the
call `get_score(test_y, pred_y)` reads the name `test_y`, which no
earlier cell binds (the split-variable cells bind only `train_y`,
`train_X`, `valid_y` and `valid_X`), so the cell always stops with an
undefined-name (`NameError`) failure at `test_y`. -/
theorem evaluation_cell_name_error :
    firstUndefinedName namesDefinedBeforeEvaluation evaluationCellReads =
        some "test_y" ∧
      cellRuns namesDefinedBeforeEvaluation evaluationCellReads = false ∧
      "test_y" ∉ namesDefinedBeforeEvaluation ∧
      "train_y" ∈ namesDefinedBeforeEvaluation ∧
      "train_X" ∈ namesDefinedBeforeEvaluation ∧
      "valid_y" ∈ namesDefinedBeforeEvaluation ∧
      "valid_X" ∈ namesDefinedBeforeEvaluation := by
  refine ⟨by decide, by decide, by decide, by decide, by decide, by decide, by decide⟩

end ChurnPipeline
